import Mathlib

/-
Verification of the jogdb permission-checked document store.

The development shallowly embeds the Go sources:
  * `datastore.go` — the `MemDataStore` storage engine (documents, permission
    bitsets, admin and namespace-admin tables) and the `Checked*` authorization
    gate functions over the `DataStore` interface;
  * `api.go` — the flag-handling core of the `setToken` HTTP handler.

Go maps with string keys are embedded as total functions `String → α` whose
default value is the Go zero value of the map's value type (nil slices and nil
inner maps become `Option`-`none`, missing `uint8` entries become `0`, missing
`bool` entries become `false`).  Go byte slices are `Option (List Nat)`: `none`
is the nil slice (also the engine's NotFound indicator), `some l` a non-nil
slice with contents `l`.  Go `error` results are `Option GoError`, `none`
being the nil error.  Stateful methods take the receiver and return it
updated, mirroring the sequential (mutex-serialized) execution of the source.
-/

/-- Go `[]byte`: `none` is the nil slice, `some l` a non-nil slice holding
bytes `l`. -/
abbrev GoBytes := Option (List Nat)

/-- Go `error` values that occur in the repository: the `ErrAccessDenied`
sentinel from `datastore.go`, plus arbitrary other errors (an abstract
`DataStore` implementation may fail with any error). -/
inductive GoError where
  | accessDenied : GoError
  | errMsg : (msg : String) → GoError
deriving DecidableEq

/-- Pointwise update of an embedded Go map (`m[k] = v`; deleting a key stores
the zero value, which is how absence is represented). -/
def update {α : Type} (m : String → α) (k : String) (v : α) : String → α :=
  fun x => if x = k then v else m x

/-- Go `const permGet = uint8(1)` from `datastore.go`. -/
def permGet : Nat := 1

/-- Go `const permPut = uint8(2)` from `datastore.go`. -/
def permPut : Nat := 2

/-- Go `const permAppend = uint8(4)` from `datastore.go`. -/
def permAppend : Nat := 4

/-- Go unary `^b` on `uint8` (bitwise complement) for `b < 256`. -/
def not8 (b : Nat) : Nat := 255 - b % 256

/-- The bit manipulation performed by `MemDataStore.SetToken` on the current
permission byte `cur` for flags `get`, `put`, `app`. -/
def setBits (cur : Nat) (get put app : Bool) : Nat :=
  let c1 := if get then cur ||| permGet else cur &&& not8 permGet
  let c2 := if put then c1 ||| permPut else c1 &&& not8 permPut
  if app then c2 ||| permAppend else c2 &&& not8 permAppend

/-- Go `append(s, v...)` on byte slices: appending zero elements returns `s`
unchanged (nil stays nil); appending to nil allocates a fresh slice. -/
def goAppend (s v : GoBytes) : GoBytes :=
  match v with
  | none => s
  | some [] => s
  | some (b :: bs) => some (s.getD [] ++ (b :: bs))

/-- The `MemDataStore` struct of `datastore.go` (the mutex is not modelled:
execution is sequential, every operation runs to completion under the lock).
`storage : map[string]kvBytes`, `perms : map[string]map[string]kvPerms`,
`nsAdmins : map[string]kvBool`, `admins : kvBool`, `rootToken : string`. -/
structure MemDataStore where
  storage : String → Option (String → GoBytes)
  perms : String → Option (String → Option (String → Nat))
  nsAdmins : String → Option (String → Bool)
  admins : String → Bool
  rootToken : String

/-- `NewMemDataStore` from `datastore.go`: fresh empty maps plus the root
token. -/
def NewMemDataStore (rootToken : String) : MemDataStore :=
  { storage := fun _ => none
    perms := fun _ => none
    nsAdmins := fun _ => none
    admins := fun _ => false
    rootToken := rootToken }

/-- `(*MemDataStore).IsRoot`: direct string comparison with the stored root
token; never errors. -/
def MemDataStore.IsRoot (ds : MemDataStore) (token : String) : Bool × Option GoError :=
  (ds.rootToken == token, none)

/-- `(*MemDataStore).SetNamespaceAdmin`: creates the per-namespace map on
first grant; removing from a missing map is a no-op; never errors. -/
def MemDataStore.SetNamespaceAdmin (ds : MemDataStore) (token ns : String) (is : Bool) :
    Option GoError × MemDataStore :=
  match ds.nsAdmins ns with
  | none =>
    if !is then
      (none, ds)
    else
      let nsV : String → Bool := update (fun _ => false) token true
      (none, { ds with nsAdmins := update ds.nsAdmins ns (some nsV) })
  | some nsV =>
    let nsV' := if is then update nsV token true else update nsV token false
    (none, { ds with nsAdmins := update ds.nsAdmins ns (some nsV') })

/-- `(*MemDataStore).SetAdmin`: set membership on `is = true`, delete on
`is = false`; never errors. -/
def MemDataStore.SetAdmin (ds : MemDataStore) (token : String) (is : Bool) :
    Option GoError × MemDataStore :=
  (none, { ds with admins := update ds.admins token is })

/-- `(*MemDataStore).IsAdmin`: membership lookup in the admins map. -/
def MemDataStore.IsAdmin (ds : MemDataStore) (token : String) : Bool × Option GoError :=
  (ds.admins token, none)

/-- `(*MemDataStore).IsNamespaceAdmin`: nil namespace map means false. -/
def MemDataStore.IsNamespaceAdmin (ds : MemDataStore) (token ns : String) :
    Bool × Option GoError :=
  match ds.nsAdmins ns with
  | none => (false, none)
  | some nsV => (nsV token, none)

/-- `(*MemDataStore).SetToken`: lazily creates the nested permission maps;
all-false flags delete the token's record; otherwise the three bits are set
or cleared individually on the current byte. -/
def MemDataStore.SetToken (ds : MemDataStore) (token ns doc : String) (get put app : Bool) :
    Option GoError × MemDataStore :=
  let nsV : String → Option (String → Nat) :=
    match ds.perms ns with
    | none => fun _ => none
    | some m => m
  let docV : String → Nat :=
    match nsV doc with
    | none => fun _ => 0
    | some m => m
  let docV' : String → Nat :=
    if !get && !put && !app then
      update docV token 0
    else
      update docV token (setBits (docV token) get put app)
  (none, { ds with perms := update ds.perms ns (some (update nsV doc (some docV'))) })

/-- `(*MemDataStore).CanGet`: nil maps deny; otherwise test the Get bit. -/
def MemDataStore.CanGet (ds : MemDataStore) (token ns doc : String) : Bool × Option GoError :=
  match ds.perms ns with
  | none => (false, none)
  | some nsV =>
    match nsV doc with
    | none => (false, none)
    | some docV => ((docV token &&& permGet) == permGet, none)

/-- `(*MemDataStore).CanPut`: nil maps deny; otherwise test the Put bit. -/
def MemDataStore.CanPut (ds : MemDataStore) (token ns doc : String) : Bool × Option GoError :=
  match ds.perms ns with
  | none => (false, none)
  | some nsV =>
    match nsV doc with
    | none => (false, none)
    | some docV => ((docV token &&& permPut) == permPut, none)

/-- `(*MemDataStore).CanAppend`: nil maps deny; otherwise test the Append
bit. -/
def MemDataStore.CanAppend (ds : MemDataStore) (token ns doc : String) : Bool × Option GoError :=
  match ds.perms ns with
  | none => (false, none)
  | some nsV =>
    match nsV doc with
    | none => (false, none)
    | some docV => ((docV token &&& permAppend) == permAppend, none)

/-- `(*MemDataStore).Append`: lazily creates the namespace map, then appends
delimiter and value in turn to the current (possibly nil) document slice. -/
def MemDataStore.Append (ds : MemDataStore) (ns doc : String) (delim v : GoBytes) :
    Option GoError × MemDataStore :=
  let nsV : String → GoBytes :=
    match ds.storage ns with
    | none => fun _ => none
    | some m => m
  let d1 := goAppend (nsV doc) delim
  let d2 := goAppend d1 v
  (none, { ds with storage := update ds.storage ns (some (update nsV doc d2)) })

/-- `(*MemDataStore).Put`: lazily creates the namespace map and stores the
value as given. -/
def MemDataStore.Put (ds : MemDataStore) (ns doc : String) (v : GoBytes) :
    Option GoError × MemDataStore :=
  let nsV : String → GoBytes :=
    match ds.storage ns with
    | none => fun _ => none
    | some m => m
  (none, { ds with storage := update ds.storage ns (some (update nsV doc v)) })

/-- `(*MemDataStore).Get`: nil namespace map or nil document slice yield the
nil (NotFound) result; otherwise the stored slice is returned as is. -/
def MemDataStore.Get (ds : MemDataStore) (ns doc : String) : GoBytes × Option GoError :=
  match ds.storage ns with
  | none => (none, none)
  | some nsV =>
    match nsV doc with
    | none => (none, none)
    | some docV => (some docV, none)

/-- The `DataStore` interface of `datastore.go`, over an abstract state type
`σ`: each method takes the current store state and returns its Go results
together with the successor state. -/
structure DataStoreOps (σ : Type) where
  Get : String → String → σ → (GoBytes × Option GoError) × σ
  Put : String → String → GoBytes → σ → Option GoError × σ
  Append : String → String → GoBytes → GoBytes → σ → Option GoError × σ
  CanGet : String → String → String → σ → (Bool × Option GoError) × σ
  CanPut : String → String → String → σ → (Bool × Option GoError) × σ
  CanAppend : String → String → String → σ → (Bool × Option GoError) × σ
  SetToken : String → String → String → Bool → Bool → Bool → σ → Option GoError × σ
  IsNamespaceAdmin : String → String → σ → (Bool × Option GoError) × σ
  IsAdmin : String → σ → (Bool × Option GoError) × σ
  SetNamespaceAdmin : String → String → Bool → σ → Option GoError × σ
  SetAdmin : String → Bool → σ → Option GoError × σ
  IsRoot : String → σ → (Bool × Option GoError) × σ

/-- `CheckedSetAdmin` from `datastore.go`: forward to `SetAdmin` iff
`IsRoot clientToken`; propagate predicate errors verbatim. -/
def CheckedSetAdmin {σ : Type} (ds : DataStoreOps σ) (clientToken token : String) (is : Bool)
    (s : σ) : Option GoError × σ :=
  let r := ds.IsRoot clientToken s
  match r.1.2 with
  | some e => (some e, r.2)
  | none =>
    if !r.1.1 then (some GoError.accessDenied, r.2)
    else ds.SetAdmin token is r.2

/-- `CheckedSetNamespaceAdmin` from `datastore.go`: forward to
`SetNamespaceAdmin` iff `IsAdmin clientToken`. -/
def CheckedSetNamespaceAdmin {σ : Type} (ds : DataStoreOps σ) (clientToken token ns : String)
    (is : Bool) (s : σ) : Option GoError × σ :=
  let r := ds.IsAdmin clientToken s
  match r.1.2 with
  | some e => (some e, r.2)
  | none =>
    if !r.1.1 then (some GoError.accessDenied, r.2)
    else ds.SetNamespaceAdmin token ns is r.2

/-- `CheckedSetToken` from `datastore.go`: forward to `SetToken` iff
`IsNamespaceAdmin clientToken ns`. -/
def CheckedSetToken {σ : Type} (ds : DataStoreOps σ) (clientToken token ns doc : String)
    (get put app : Bool) (s : σ) : Option GoError × σ :=
  let r := ds.IsNamespaceAdmin clientToken ns s
  match r.1.2 with
  | some e => (some e, r.2)
  | none =>
    if !r.1.1 then (some GoError.accessDenied, r.2)
    else ds.SetToken token ns doc get put app r.2

/-- `CheckedGet` from `datastore.go`: forward to `Get` iff
`CanGet clientToken ns doc`. -/
def CheckedGet {σ : Type} (ds : DataStoreOps σ) (clientToken ns doc : String) (s : σ) :
    (GoBytes × Option GoError) × σ :=
  let r := ds.CanGet clientToken ns doc s
  match r.1.2 with
  | some e => ((none, some e), r.2)
  | none =>
    if !r.1.1 then ((none, some GoError.accessDenied), r.2)
    else ds.Get ns doc r.2

/-- `CheckedPut` from `datastore.go`: forward to `Put` iff
`CanPut clientToken ns doc`. -/
def CheckedPut {σ : Type} (ds : DataStoreOps σ) (clientToken ns doc : String) (v : GoBytes)
    (s : σ) : Option GoError × σ :=
  let r := ds.CanPut clientToken ns doc s
  match r.1.2 with
  | some e => (some e, r.2)
  | none =>
    if !r.1.1 then (some GoError.accessDenied, r.2)
    else ds.Put ns doc v r.2

/-- `CheckedAppend` from `datastore.go`: forward to `Append` iff
`CanAppend clientToken ns doc`. -/
def CheckedAppend {σ : Type} (ds : DataStoreOps σ) (clientToken ns doc : String)
    (delim v : GoBytes) (s : σ) : Option GoError × σ :=
  let r := ds.CanAppend clientToken ns doc s
  match r.1.2 with
  | some e => (some e, r.2)
  | none =>
    if !r.1.1 then (some GoError.accessDenied, r.2)
    else ds.Append ns doc delim v r.2

/-- The `MemDataStore` instantiation of the `DataStore` interface: queries
leave the state untouched, mutators thread the updated store. -/
def memOps : DataStoreOps MemDataStore where
  Get := fun ns doc s => (s.Get ns doc, s)
  Put := fun ns doc v s => s.Put ns doc v
  Append := fun ns doc d v s => s.Append ns doc d v
  CanGet := fun t ns doc s => (s.CanGet t ns doc, s)
  CanPut := fun t ns doc s => (s.CanPut t ns doc, s)
  CanAppend := fun t ns doc s => (s.CanAppend t ns doc, s)
  SetToken := fun t ns doc g p a s => s.SetToken t ns doc g p a
  IsNamespaceAdmin := fun t ns s => (s.IsNamespaceAdmin t ns, s)
  IsAdmin := fun t s => (s.IsAdmin t, s)
  SetNamespaceAdmin := fun t ns is s => s.SetNamespaceAdmin t ns is
  SetAdmin := fun t is s => s.SetAdmin t is
  IsRoot := fun t s => (s.IsRoot t, s)

/-- The `setTokenRequest` JSON body of `api.go` (fields `Token`, `Put`,
`Get`, `Append`). -/
structure SetTokenRequest where
  Token : String
  Put : Bool
  Get : Bool
  Append : Bool
deriving DecidableEq

/-- The data-handling core of the `setToken` HTTP handler in `api.go`
(lines 161-190): substitute a generated token when the request carries none,
then call `CheckedSetToken(e.DataStore, clientToken, str.Token, ns, doc,
str.Put, str.Get, str.Append)` — the argument order is taken verbatim from
the source.  `generated` stands for `e.generateToken()`. -/
def apiSetToken {σ : Type} (ds : DataStoreOps σ) (generated clientToken ns doc : String)
    (str0 : SetTokenRequest) (s : σ) : (Option GoError × SetTokenRequest) × σ :=
  let str := if str0.Token == "" then { str0 with Token := generated } else str0
  let r := CheckedSetToken ds clientToken str.Token ns doc str.Put str.Get str.Append s
  ((r.1, str), r.2)

/-- One invocation of a storage-engine or gate operation, for reasoning about
arbitrary operation sequences against a `MemDataStore`. -/
inductive Op where
  | get : (ns doc : String) → Op
  | put : (ns doc : String) → (v : GoBytes) → Op
  | append : (ns doc : String) → (delim v : GoBytes) → Op
  | setToken : (token ns doc : String) → (g p a : Bool) → Op
  | setNamespaceAdmin : (token ns : String) → (is : Bool) → Op
  | setAdmin : (token : String) → (is : Bool) → Op
  | checkedGet : (ct ns doc : String) → Op
  | checkedPut : (ct ns doc : String) → (v : GoBytes) → Op
  | checkedAppend : (ct ns doc : String) → (delim v : GoBytes) → Op
  | checkedSetToken : (ct token ns doc : String) → (g p a : Bool) → Op
  | checkedSetNamespaceAdmin : (ct token ns : String) → (is : Bool) → Op
  | checkedSetAdmin : (ct token : String) → (is : Bool) → Op

/-- State transition of a single operation on the in-memory store (results
are discarded, successor states kept). -/
def applyOp (s : MemDataStore) : Op → MemDataStore
  | .get _ _ => s
  | .put ns doc v => (s.Put ns doc v).2
  | .append ns doc d v => (s.Append ns doc d v).2
  | .setToken t ns doc g p a => (s.SetToken t ns doc g p a).2
  | .setNamespaceAdmin t ns is => (s.SetNamespaceAdmin t ns is).2
  | .setAdmin t is => (s.SetAdmin t is).2
  | .checkedGet ct ns doc => (CheckedGet memOps ct ns doc s).2
  | .checkedPut ct ns doc v => (CheckedPut memOps ct ns doc v s).2
  | .checkedAppend ct ns doc d v => (CheckedAppend memOps ct ns doc d v s).2
  | .checkedSetToken ct t ns doc g p a => (CheckedSetToken memOps ct t ns doc g p a s).2
  | .checkedSetNamespaceAdmin ct t ns is => (CheckedSetNamespaceAdmin memOps ct t ns is s).2
  | .checkedSetAdmin ct t is => (CheckedSetAdmin memOps ct t is s).2

/-- Run a sequence of operations left to right. -/
def runOps (s : MemDataStore) (ops : List Op) : MemDataStore :=
  ops.foldl applyOp s

/-- Does the operation grant at least one capability bit to `(t, ns, doc)`
(directly or through the gate)? -/
def grantsTo (t ns doc : String) : Op → Bool
  | .setToken t' ns' doc' g p a => t' == t && ns' == ns && doc' == doc && (g || p || a)
  | .checkedSetToken _ t' ns' doc' g p a => t' == t && ns' == ns && doc' == doc && (g || p || a)
  | _ => false

/-- No operation of the sequence grants a capability to `(t, ns, doc)`. -/
def noGrant (t ns doc : String) (ops : List Op) : Bool :=
  ops.all (fun op => !grantsTo t ns doc op)

/-- Does the operation write (put or append, directly or through the gate)
to the document `(ns, doc)`? -/
def writesTo (ns doc : String) : Op → Bool
  | .put ns' doc' _ => ns' == ns && doc' == doc
  | .append ns' doc' _ _ => ns' == ns && doc' == doc
  | .checkedPut _ ns' doc' _ => ns' == ns && doc' == doc
  | .checkedAppend _ ns' doc' _ _ => ns' == ns && doc' == doc
  | _ => false

/-- No operation of the sequence writes to `(ns, doc)`. -/
def noWrites (ns doc : String) (ops : List Op) : Bool :=
  ops.all (fun op => !writesTo ns doc op)

/-- The permission byte the store associates with `(ns, doc, t)` (0 when any
of the nested maps is missing). -/
def permsLookup (s : MemDataStore) (ns doc t : String) : Nat :=
  match s.perms ns with
  | none => 0
  | some nsV =>
    match nsV doc with
    | none => 0
    | some docV => docV t

/-- The document slice the store associates with `(ns, doc)` (nil when any
of the nested maps is missing). -/
def storageLookup (s : MemDataStore) (ns doc : String) : GoBytes :=
  match s.storage ns with
  | none => none
  | some nsV => nsV doc

/-- Byte contents of a possibly-nil Go slice (nil reads as empty). -/
def bytesOf (b : GoBytes) : List Nat :=
  match b with
  | none => []
  | some l => l

/-- Membership the store associates with `(t, ns)` in the namespace-admin
tables (false when the namespace map is missing). -/
def nsAdminLookup (s : MemDataStore) (t ns : String) : Bool :=
  match s.nsAdmins ns with
  | none => false
  | some nsV => nsV t

/-- A `DataStore` implementation (over a unit state) whose every operation
fails with an internal error, exercising the gate's error-propagation path
reserved by the interface for fallible backing stores. -/
def errOps : DataStoreOps Unit where
  Get := fun _ _ s => ((none, some (GoError.errMsg "boom")), s)
  Put := fun _ _ _ s => (some (GoError.errMsg "boom"), s)
  Append := fun _ _ _ _ s => (some (GoError.errMsg "boom"), s)
  CanGet := fun _ _ _ s => ((false, some (GoError.errMsg "boom")), s)
  CanPut := fun _ _ _ s => ((false, some (GoError.errMsg "boom")), s)
  CanAppend := fun _ _ _ s => ((false, some (GoError.errMsg "boom")), s)
  SetToken := fun _ _ _ _ _ _ s => (some (GoError.errMsg "boom"), s)
  IsNamespaceAdmin := fun _ _ s => ((false, some (GoError.errMsg "boom")), s)
  IsAdmin := fun _ s => ((false, some (GoError.errMsg "boom")), s)
  SetNamespaceAdmin := fun _ _ _ s => (some (GoError.errMsg "boom"), s)
  SetAdmin := fun _ _ s => (some (GoError.errMsg "boom"), s)
  IsRoot := fun _ s => ((false, some (GoError.errMsg "boom")), s)

/-- Hierarchy scenario of the spec: state after `checkedSetAdmin("R", "A", true)`
on a fresh store with root token "R". -/
def scenario1 : MemDataStore := (CheckedSetAdmin memOps "R" "A" true (NewMemDataStore "R")).2

/-- Hierarchy scenario: state after `checkedSetNamespaceAdmin("A", "N", "ns1", true)`. -/
def scenario2 : MemDataStore := (CheckedSetNamespaceAdmin memOps "A" "N" "ns1" true scenario1).2

/-- Hierarchy scenario: state after `checkedSetToken("N", "T", "ns1", "doc1", true, true, false)`. -/
def scenario3 : MemDataStore :=
  (CheckedSetToken memOps "N" "T" "ns1" "doc1" true true false scenario2).2

/-- Hierarchy scenario: state after `checkedPut("T", "ns1", "doc1", "hi")`. -/
def scenario4 : MemDataStore := (CheckedPut memOps "T" "ns1" "doc1" (some [104, 105]) scenario3).2

/-! ### Helper lemmas: map updates -/

theorem update_eq {α : Type} (m : String → α) (k : String) (v : α) : update m k v k = v := by
  simp [update]

theorem update_ne {α : Type} (m : String → α) (k : String) (v : α) (x : String) (h : x ≠ k) :
    update m k v x = m x := by
  simp [update, h]

theorem update_idem {α : Type} (m : String → α) (k : String) (v w : α) :
    update (update m k v) k w = update m k w := by
  funext x
  by_cases h : x = k <;> simp [update, h]

theorem update_self {α : Type} (m : String → α) (k : String) (v : α) (h : v = m k) :
    update m k v = m := by
  funext x
  by_cases hx : x = k <;> simp [update, hx, h]

/-! ### Helper lemmas: the permission byte -/

theorem testBit_byte (n : Nat) (hn : n < 256) (i : Nat) (h8 : 8 ≤ i) :
    Nat.testBit n i = false := by
  apply Nat.testBit_lt_two_pow
  calc n < 2 ^ 8 := hn
    _ ≤ 2 ^ i := Nat.pow_le_pow_right (by norm_num) h8

theorem testBit_one (i : Nat) : Nat.testBit 1 i = decide (i = 0) := by
  rcases i with _ | i
  · rfl
  · simp [Nat.testBit_succ]

theorem testBit_two (i : Nat) : Nat.testBit 2 i = decide (i = 1) := by
  rcases i with _ | _ | i
  · rfl
  · rfl
  · simp [Nat.testBit_succ]

theorem testBit_four (i : Nat) : Nat.testBit 4 i = decide (i = 2) := by
  rcases i with _ | _ | _ | i
  · rfl
  · rfl
  · rfl
  · simp [Nat.testBit_succ]

theorem testBit_254 (i : Nat) : Nat.testBit 254 i = (decide (i < 8) && !decide (i = 0)) := by
  rcases Nat.lt_or_ge i 8 with h | h
  · interval_cases i <;> decide
  · rw [testBit_byte 254 (by norm_num) i h]
    have hh : ¬ i < 8 := by omega
    simp [hh]

theorem testBit_253 (i : Nat) : Nat.testBit 253 i = (decide (i < 8) && !decide (i = 1)) := by
  rcases Nat.lt_or_ge i 8 with h | h
  · interval_cases i <;> decide
  · rw [testBit_byte 253 (by norm_num) i h]
    have hh : ¬ i < 8 := by omega
    simp [hh]

theorem testBit_251 (i : Nat) : Nat.testBit 251 i = (decide (i < 8) && !decide (i = 2)) := by
  rcases Nat.lt_or_ge i 8 with h | h
  · interval_cases i <;> decide
  · rw [testBit_byte 251 (by norm_num) i h]
    have hh : ¬ i < 8 := by omega
    simp [hh]

theorem setBits_testBit (c : Nat) (g p a : Bool) (i : Nat) :
    (setBits c g p a).testBit i =
      if i = 0 then g
      else if i = 1 then p
      else if i = 2 then a
      else (c.testBit i && (decide (i < 8) || (g && p && a))) := by
  cases g <;> cases p <;> cases a <;>
    simp only [setBits, not8, permGet, permPut, permAppend, if_true, if_false,
      Bool.false_eq_true, Bool.true_eq_false] <;>
    norm_num <;>
    simp only [Nat.testBit_lor, Nat.testBit_land, testBit_one, testBit_two, testBit_four,
      testBit_254, testBit_253, testBit_251] <;>
    by_cases h0 : i = 0 <;> by_cases h1 : i = 1 <;> by_cases h2 : i = 2 <;>
    by_cases hlt : i < 8 <;>
    simp [h0, h1, h2, hlt]

theorem setBits_idem (c : Nat) (g p a : Bool) :
    setBits (setBits c g p a) g p a = setBits c g p a := by
  apply Nat.eq_of_testBit_eq
  intro i
  simp only [setBits_testBit]
  by_cases h0 : i = 0 <;> by_cases h1 : i = 1 <;> by_cases h2 : i = 2 <;>
    simp [h0, h1, h2]


/-! ### Characterizations of the engine queries -/


theorem canGet_eq (s : MemDataStore) (t ns doc : String) :
    s.CanGet t ns doc = (((permsLookup s ns doc t &&& permGet) == permGet), none) := by
  cases hp : s.perms ns with
  | none => simp [MemDataStore.CanGet, permsLookup, hp, permGet]
  | some nsV =>
    cases hd : nsV doc with
    | none => simp [MemDataStore.CanGet, permsLookup, hp, hd, permGet]
    | some docV => simp [MemDataStore.CanGet, permsLookup, hp, hd]

theorem canPut_eq (s : MemDataStore) (t ns doc : String) :
    s.CanPut t ns doc = (((permsLookup s ns doc t &&& permPut) == permPut), none) := by
  cases hp : s.perms ns with
  | none => simp [MemDataStore.CanPut, permsLookup, hp, permPut]
  | some nsV =>
    cases hd : nsV doc with
    | none => simp [MemDataStore.CanPut, permsLookup, hp, hd, permPut]
    | some docV => simp [MemDataStore.CanPut, permsLookup, hp, hd]

theorem canAppend_eq (s : MemDataStore) (t ns doc : String) :
    s.CanAppend t ns doc = (((permsLookup s ns doc t &&& permAppend) == permAppend), none) := by
  cases hp : s.perms ns with
  | none => simp [MemDataStore.CanAppend, permsLookup, hp, permAppend]
  | some nsV =>
    cases hd : nsV doc with
    | none => simp [MemDataStore.CanAppend, permsLookup, hp, hd, permAppend]
    | some docV => simp [MemDataStore.CanAppend, permsLookup, hp, hd]

theorem get_eq (s : MemDataStore) (ns doc : String) :
    s.Get ns doc = (storageLookup s ns doc, none) := by
  cases hp : s.storage ns with
  | none => simp [MemDataStore.Get, storageLookup, hp]
  | some nsV =>
    cases hd : nsV doc with
    | none => simp [MemDataStore.Get, storageLookup, hp, hd]
    | some docV => simp [MemDataStore.Get, storageLookup, hp, hd]

theorem isNamespaceAdmin_eq (s : MemDataStore) (t ns : String) :
    s.IsNamespaceAdmin t ns = (nsAdminLookup s t ns, none) := by
  cases hp : s.nsAdmins ns with
  | none => simp [MemDataStore.IsNamespaceAdmin, nsAdminLookup, hp]
  | some nsV => simp [MemDataStore.IsNamespaceAdmin, nsAdminLookup, hp]

/-! ### Effect of the engine mutators on the lookups -/

theorem permsLookup_congr (s s' : MemDataStore) (h : s'.perms = s.perms) (ns doc t : String) :
    permsLookup s' ns doc t = permsLookup s ns doc t := by
  unfold permsLookup
  rw [h]

theorem storageLookup_congr (s s' : MemDataStore) (h : s'.storage = s.storage) (ns doc : String) :
    storageLookup s' ns doc = storageLookup s ns doc := by
  unfold storageLookup
  rw [h]

theorem SetNamespaceAdmin_perms (s : MemDataStore) (t ns : String) (is : Bool) :
    ((s.SetNamespaceAdmin t ns is).2).perms = s.perms := by
  cases hp : s.nsAdmins ns with
  | none => cases is <;> simp [MemDataStore.SetNamespaceAdmin, hp]
  | some nsV => simp [MemDataStore.SetNamespaceAdmin, hp]

theorem SetNamespaceAdmin_storage (s : MemDataStore) (t ns : String) (is : Bool) :
    ((s.SetNamespaceAdmin t ns is).2).storage = s.storage := by
  cases hp : s.nsAdmins ns with
  | none => cases is <;> simp [MemDataStore.SetNamespaceAdmin, hp]
  | some nsV => simp [MemDataStore.SetNamespaceAdmin, hp]

theorem SetNamespaceAdmin_err (s : MemDataStore) (t ns : String) (is : Bool) :
    (s.SetNamespaceAdmin t ns is).1 = none := by
  cases hp : s.nsAdmins ns with
  | none => cases is <;> simp [MemDataStore.SetNamespaceAdmin, hp]
  | some nsV => simp [MemDataStore.SetNamespaceAdmin, hp]

theorem permsLookup_SetToken_ns_ne (s : MemDataStore) (t' ns' doc' : String) (g p a : Bool)
    (ns doc t : String) (h : ns ≠ ns') :
    permsLookup (s.SetToken t' ns' doc' g p a).2 ns doc t = permsLookup s ns doc t := by
  unfold MemDataStore.SetToken permsLookup
  simp only [update_ne _ _ _ _ h]

theorem permsLookup_SetToken_doc_ne (s : MemDataStore) (t' ns' doc' : String) (g p a : Bool)
    (doc t : String) (h : doc ≠ doc') :
    permsLookup (s.SetToken t' ns' doc' g p a).2 ns' doc t = permsLookup s ns' doc t := by
  unfold MemDataStore.SetToken permsLookup
  simp only [update_eq, update_ne _ _ _ _ h]
  cases hp : s.perms ns' with
  | none => simp
  | some nsV => simp

theorem permsLookup_SetToken_t_ne (s : MemDataStore) (t' ns' doc' : String) (g p a : Bool)
    (t : String) (h : t ≠ t') :
    permsLookup (s.SetToken t' ns' doc' g p a).2 ns' doc' t = permsLookup s ns' doc' t := by
  unfold MemDataStore.SetToken permsLookup
  simp only [update_eq]
  cases hf : (!g && !p && !a) <;>
    simp only [hf, Bool.false_eq_true, if_false, if_true, update_ne _ _ _ _ h] <;>
    cases hp : s.perms ns' with
  | none => simp
  | some nsV =>
    cases hd : nsV doc' with
    | none => simp [hd]
    | some docV => simp [hd]

theorem permsLookup_SetToken_same (s : MemDataStore) (t ns doc : String) (g p a : Bool) :
    permsLookup (s.SetToken t ns doc g p a).2 ns doc t =
      if (!g && !p && !a) then 0 else setBits (permsLookup s ns doc t) g p a := by
  unfold MemDataStore.SetToken permsLookup
  simp only [update_eq]
  cases hf : (!g && !p && !a) <;>
    simp only [hf, Bool.false_eq_true, if_false, if_true, update_eq] <;>
    cases hp : s.perms ns with
  | none => simp
  | some nsV =>
    cases hd : nsV doc with
    | none => simp [hd]
    | some docV => simp [hd]

theorem SetToken_storage (s : MemDataStore) (t ns doc : String) (g p a : Bool) :
    ((s.SetToken t ns doc g p a).2).storage = s.storage := rfl

theorem SetToken_err (s : MemDataStore) (t ns doc : String) (g p a : Bool) :
    (s.SetToken t ns doc g p a).1 = none := rfl

theorem SetAdmin_perms (s : MemDataStore) (t : String) (is : Bool) :
    ((s.SetAdmin t is).2).perms = s.perms := rfl

theorem SetAdmin_storage (s : MemDataStore) (t : String) (is : Bool) :
    ((s.SetAdmin t is).2).storage = s.storage := rfl

theorem Put_perms (s : MemDataStore) (ns doc : String) (v : GoBytes) :
    ((s.Put ns doc v).2).perms = s.perms := rfl

theorem Append_perms (s : MemDataStore) (ns doc : String) (d v : GoBytes) :
    ((s.Append ns doc d v).2).perms = s.perms := rfl

theorem storageLookup_Put (s : MemDataStore) (ns' doc' : String) (v : GoBytes) (ns doc : String) :
    storageLookup (s.Put ns' doc' v).2 ns doc =
      if ns = ns' ∧ doc = doc' then v else storageLookup s ns doc := by
  unfold MemDataStore.Put storageLookup
  by_cases hns : ns = ns'
  · subst hns
    simp only [update_eq]
    by_cases hdoc : doc = doc'
    · subst hdoc
      simp [update_eq]
    · simp only [update_ne _ _ _ _ hdoc, hdoc, and_false, if_false]
      cases hp : s.storage ns with
      | none => simp
      | some nsV => simp
  · simp only [update_ne _ _ _ _ hns, hns, false_and, if_false]

theorem storageLookup_Append (s : MemDataStore) (ns' doc' : String) (d v : GoBytes)
    (ns doc : String) :
    storageLookup (s.Append ns' doc' d v).2 ns doc =
      if ns = ns' ∧ doc = doc' then goAppend (goAppend (storageLookup s ns' doc') d) v
      else storageLookup s ns doc := by
  unfold MemDataStore.Append storageLookup
  by_cases hns : ns = ns'
  · subst hns
    simp only [update_eq]
    by_cases hdoc : doc = doc'
    · subst hdoc
      simp only [and_self, if_true, update_eq]
      cases hp : s.storage ns with
      | none => simp
      | some nsV => simp
    · simp only [update_ne _ _ _ _ hdoc, hdoc, and_false, if_false]
      cases hp : s.storage ns with
      | none => simp
      | some nsV => simp
  · simp only [update_ne _ _ _ _ hns, hns, false_and, if_false]

theorem Append_err (s : MemDataStore) (ns doc : String) (d v : GoBytes) :
    (s.Append ns doc d v).1 = none := rfl

theorem Put_err (s : MemDataStore) (ns doc : String) (v : GoBytes) :
    (s.Put ns doc v).1 = none := rfl

/-! ### The gate over the in-memory store -/

theorem CheckedGet_memOps (s : MemDataStore) (ct ns doc : String) :
    CheckedGet memOps ct ns doc s =
      if (s.CanGet ct ns doc).1 = true then (s.Get ns doc, s)
      else ((none, some GoError.accessDenied), s) := by
  simp only [CheckedGet, memOps, canGet_eq]
  cases hb : ((permsLookup s ns doc ct &&& permGet) == permGet) <;> simp [hb]

theorem CheckedPut_memOps (s : MemDataStore) (ct ns doc : String) (v : GoBytes) :
    CheckedPut memOps ct ns doc v s =
      if (s.CanPut ct ns doc).1 = true then s.Put ns doc v
      else (some GoError.accessDenied, s) := by
  simp only [CheckedPut, memOps, canPut_eq]
  cases hb : ((permsLookup s ns doc ct &&& permPut) == permPut) <;> simp [hb]

theorem CheckedAppend_memOps (s : MemDataStore) (ct ns doc : String) (d v : GoBytes) :
    CheckedAppend memOps ct ns doc d v s =
      if (s.CanAppend ct ns doc).1 = true then s.Append ns doc d v
      else (some GoError.accessDenied, s) := by
  simp only [CheckedAppend, memOps, canAppend_eq]
  cases hb : ((permsLookup s ns doc ct &&& permAppend) == permAppend) <;> simp [hb]

theorem CheckedSetToken_memOps (s : MemDataStore) (ct t ns doc : String) (g p a : Bool) :
    CheckedSetToken memOps ct t ns doc g p a s =
      if nsAdminLookup s ct ns = true then s.SetToken t ns doc g p a
      else (some GoError.accessDenied, s) := by
  simp only [CheckedSetToken, memOps, isNamespaceAdmin_eq]
  cases hb : nsAdminLookup s ct ns <;> simp [hb]

theorem CheckedSetNamespaceAdmin_memOps (s : MemDataStore) (ct t ns : String) (is : Bool) :
    CheckedSetNamespaceAdmin memOps ct t ns is s =
      if s.admins ct = true then s.SetNamespaceAdmin t ns is
      else (some GoError.accessDenied, s) := by
  simp only [CheckedSetNamespaceAdmin, memOps, MemDataStore.IsAdmin]
  cases hb : s.admins ct <;> simp [hb]

theorem CheckedSetAdmin_memOps (s : MemDataStore) (ct t : String) (is : Bool) :
    CheckedSetAdmin memOps ct t is s =
      if (s.rootToken == ct) = true then s.SetAdmin t is
      else (some GoError.accessDenied, s) := by
  simp only [CheckedSetAdmin, memOps, MemDataStore.IsRoot]
  cases hb : (s.rootToken == ct) <;> simp [hb]

theorem CheckedGet_memOps_state (s : MemDataStore) (ct ns doc : String) :
    (CheckedGet memOps ct ns doc s).2 = s := by
  rw [CheckedGet_memOps]
  cases hb : (s.CanGet ct ns doc).1 <;> simp [hb]

/-! ### Trace invariants: never-granted and never-written keys -/

theorem permsLookup_SetToken_preserve (s : MemDataStore) (t' ns' doc' : String) (g p a : Bool)
    (t ns doc : String) (h0 : permsLookup s ns doc t = 0)
    (hflag : (t' == t && ns' == ns && doc' == doc && (g || p || a)) = false) :
    permsLookup (s.SetToken t' ns' doc' g p a).2 ns doc t = 0 := by
  by_cases hns : ns = ns'
  · subst hns
    by_cases hdoc : doc = doc'
    · subst hdoc
      by_cases ht : t = t'
      · subst ht
        simp only [beq_self_eq_true, Bool.true_and, Bool.or_eq_false_iff] at hflag
        rw [permsLookup_SetToken_same]
        simp [hflag.1.1, hflag.1.2, hflag.2]
      · rw [permsLookup_SetToken_t_ne s t' ns doc g p a t ht]
        exact h0
    · rw [permsLookup_SetToken_doc_ne s t' ns doc' g p a doc t hdoc]
      exact h0
  · rw [permsLookup_SetToken_ns_ne s t' ns' doc' g p a ns doc t hns]
    exact h0

theorem permsLookup_applyOp (s : MemDataStore) (op : Op) (t ns doc : String)
    (h0 : permsLookup s ns doc t = 0) (hop : grantsTo t ns doc op = false) :
    permsLookup (applyOp s op) ns doc t = 0 := by
  cases op with
  | get ns' doc' => exact h0
  | put ns' doc' v =>
    rw [show applyOp s (Op.put ns' doc' v) = (s.Put ns' doc' v).2 from rfl,
      permsLookup_congr s _ (Put_perms s ns' doc' v)]
    exact h0
  | append ns' doc' d v =>
    rw [show applyOp s (Op.append ns' doc' d v) = (s.Append ns' doc' d v).2 from rfl,
      permsLookup_congr s _ (Append_perms s ns' doc' d v)]
    exact h0
  | setToken t' ns' doc' g p a =>
    exact permsLookup_SetToken_preserve s t' ns' doc' g p a t ns doc h0 hop
  | setNamespaceAdmin t' ns' is =>
    rw [show applyOp s (Op.setNamespaceAdmin t' ns' is) = (s.SetNamespaceAdmin t' ns' is).2 from rfl,
      permsLookup_congr s _ (SetNamespaceAdmin_perms s t' ns' is)]
    exact h0
  | setAdmin t' is =>
    rw [show applyOp s (Op.setAdmin t' is) = (s.SetAdmin t' is).2 from rfl,
      permsLookup_congr s _ (SetAdmin_perms s t' is)]
    exact h0
  | checkedGet ct ns' doc' =>
    rw [show applyOp s (Op.checkedGet ct ns' doc') = (CheckedGet memOps ct ns' doc' s).2 from rfl,
      CheckedGet_memOps_state]
    exact h0
  | checkedPut ct ns' doc' v =>
    rw [show applyOp s (Op.checkedPut ct ns' doc' v) = (CheckedPut memOps ct ns' doc' v s).2 from rfl,
      CheckedPut_memOps]
    cases hb : (s.CanPut ct ns' doc').1 with
    | false =>
      simp only [hb, Bool.false_eq_true, if_false]
      exact h0
    | true =>
      simp only [hb, if_true]
      rw [permsLookup_congr s _ (Put_perms s ns' doc' v)]
      exact h0
  | checkedAppend ct ns' doc' d v =>
    rw [show applyOp s (Op.checkedAppend ct ns' doc' d v)
        = (CheckedAppend memOps ct ns' doc' d v s).2 from rfl,
      CheckedAppend_memOps]
    cases hb : (s.CanAppend ct ns' doc').1 with
    | false =>
      simp only [hb, Bool.false_eq_true, if_false]
      exact h0
    | true =>
      simp only [hb, if_true]
      rw [permsLookup_congr s _ (Append_perms s ns' doc' d v)]
      exact h0
  | checkedSetToken ct t' ns' doc' g p a =>
    rw [show applyOp s (Op.checkedSetToken ct t' ns' doc' g p a)
        = (CheckedSetToken memOps ct t' ns' doc' g p a s).2 from rfl,
      CheckedSetToken_memOps]
    cases hb : nsAdminLookup s ct ns' with
    | false =>
      simp only [hb, Bool.false_eq_true, if_false]
      exact h0
    | true =>
      simp only [hb, if_true]
      exact permsLookup_SetToken_preserve s t' ns' doc' g p a t ns doc h0 hop
  | checkedSetNamespaceAdmin ct t' ns' is =>
    rw [show applyOp s (Op.checkedSetNamespaceAdmin ct t' ns' is)
        = (CheckedSetNamespaceAdmin memOps ct t' ns' is s).2 from rfl,
      CheckedSetNamespaceAdmin_memOps]
    cases hb : s.admins ct with
    | false =>
      simp only [hb, Bool.false_eq_true, if_false]
      exact h0
    | true =>
      simp only [hb, if_true]
      rw [permsLookup_congr s _ (SetNamespaceAdmin_perms s t' ns' is)]
      exact h0
  | checkedSetAdmin ct t' is =>
    rw [show applyOp s (Op.checkedSetAdmin ct t' is)
        = (CheckedSetAdmin memOps ct t' is s).2 from rfl,
      CheckedSetAdmin_memOps]
    cases hb : (s.rootToken == ct) with
    | false =>
      simp only [hb, Bool.false_eq_true, if_false]
      exact h0
    | true =>
      simp only [hb, if_true]
      rw [permsLookup_congr s _ (SetAdmin_perms s t' is)]
      exact h0

theorem storageLookup_Put_preserve (s : MemDataStore) (ns' doc' : String) (v : GoBytes)
    (ns doc : String) (h0 : storageLookup s ns doc = none)
    (hkey : (ns' == ns && doc' == doc) = false) :
    storageLookup (s.Put ns' doc' v).2 ns doc = none := by
  rw [storageLookup_Put]
  have hnot : ¬ (ns = ns' ∧ doc = doc') := by
    intro hc
    rcases hc with ⟨h1, h2⟩
    subst h1
    subst h2
    simp at hkey
  rw [if_neg hnot]
  exact h0

theorem storageLookup_Append_preserve (s : MemDataStore) (ns' doc' : String) (d v : GoBytes)
    (ns doc : String) (h0 : storageLookup s ns doc = none)
    (hkey : (ns' == ns && doc' == doc) = false) :
    storageLookup (s.Append ns' doc' d v).2 ns doc = none := by
  rw [storageLookup_Append]
  have hnot : ¬ (ns = ns' ∧ doc = doc') := by
    intro hc
    rcases hc with ⟨h1, h2⟩
    subst h1
    subst h2
    simp at hkey
  rw [if_neg hnot]
  exact h0

theorem storageLookup_applyOp (s : MemDataStore) (op : Op) (ns doc : String)
    (h0 : storageLookup s ns doc = none) (hop : writesTo ns doc op = false) :
    storageLookup (applyOp s op) ns doc = none := by
  cases op with
  | get ns' doc' => exact h0
  | put ns' doc' v =>
    exact storageLookup_Put_preserve s ns' doc' v ns doc h0 hop
  | append ns' doc' d v =>
    exact storageLookup_Append_preserve s ns' doc' d v ns doc h0 hop
  | setToken t' ns' doc' g p a =>
    rw [show applyOp s (Op.setToken t' ns' doc' g p a) = (s.SetToken t' ns' doc' g p a).2 from rfl,
      storageLookup_congr s _ (SetToken_storage s t' ns' doc' g p a)]
    exact h0
  | setNamespaceAdmin t' ns' is =>
    rw [show applyOp s (Op.setNamespaceAdmin t' ns' is) = (s.SetNamespaceAdmin t' ns' is).2 from rfl,
      storageLookup_congr s _ (SetNamespaceAdmin_storage s t' ns' is)]
    exact h0
  | setAdmin t' is =>
    rw [show applyOp s (Op.setAdmin t' is) = (s.SetAdmin t' is).2 from rfl,
      storageLookup_congr s _ (SetAdmin_storage s t' is)]
    exact h0
  | checkedGet ct ns' doc' =>
    rw [show applyOp s (Op.checkedGet ct ns' doc') = (CheckedGet memOps ct ns' doc' s).2 from rfl,
      CheckedGet_memOps_state]
    exact h0
  | checkedPut ct ns' doc' v =>
    rw [show applyOp s (Op.checkedPut ct ns' doc' v) = (CheckedPut memOps ct ns' doc' v s).2 from rfl,
      CheckedPut_memOps]
    cases hb : (s.CanPut ct ns' doc').1 with
    | false =>
      simp only [hb, Bool.false_eq_true, if_false]
      exact h0
    | true =>
      simp only [hb, if_true]
      exact storageLookup_Put_preserve s ns' doc' v ns doc h0 hop
  | checkedAppend ct ns' doc' d v =>
    rw [show applyOp s (Op.checkedAppend ct ns' doc' d v)
        = (CheckedAppend memOps ct ns' doc' d v s).2 from rfl,
      CheckedAppend_memOps]
    cases hb : (s.CanAppend ct ns' doc').1 with
    | false =>
      simp only [hb, Bool.false_eq_true, if_false]
      exact h0
    | true =>
      simp only [hb, if_true]
      exact storageLookup_Append_preserve s ns' doc' d v ns doc h0 hop
  | checkedSetToken ct t' ns' doc' g p a =>
    rw [show applyOp s (Op.checkedSetToken ct t' ns' doc' g p a)
        = (CheckedSetToken memOps ct t' ns' doc' g p a s).2 from rfl,
      CheckedSetToken_memOps]
    cases hb : nsAdminLookup s ct ns' with
    | false =>
      simp only [hb, Bool.false_eq_true, if_false]
      exact h0
    | true =>
      simp only [hb, if_true]
      rw [storageLookup_congr s _ (SetToken_storage s t' ns' doc' g p a)]
      exact h0
  | checkedSetNamespaceAdmin ct t' ns' is =>
    rw [show applyOp s (Op.checkedSetNamespaceAdmin ct t' ns' is)
        = (CheckedSetNamespaceAdmin memOps ct t' ns' is s).2 from rfl,
      CheckedSetNamespaceAdmin_memOps]
    cases hb : s.admins ct with
    | false =>
      simp only [hb, Bool.false_eq_true, if_false]
      exact h0
    | true =>
      simp only [hb, if_true]
      rw [storageLookup_congr s _ (SetNamespaceAdmin_storage s t' ns' is)]
      exact h0
  | checkedSetAdmin ct t' is =>
    rw [show applyOp s (Op.checkedSetAdmin ct t' is)
        = (CheckedSetAdmin memOps ct t' is s).2 from rfl,
      CheckedSetAdmin_memOps]
    cases hb : (s.rootToken == ct) with
    | false =>
      simp only [hb, Bool.false_eq_true, if_false]
      exact h0
    | true =>
      simp only [hb, if_true]
      rw [storageLookup_congr s _ (SetAdmin_storage s t' is)]
      exact h0

theorem permsLookup_runOps (t ns doc : String) (ops : List Op) :
    ∀ (s : MemDataStore), permsLookup s ns doc t = 0 → noGrant t ns doc ops = true →
      permsLookup (runOps s ops) ns doc t = 0 := by
  induction ops with
  | nil =>
    intro s h _
    exact h
  | cons op rest ih =>
    intro s h hng
    simp only [noGrant, List.all_cons, Bool.and_eq_true, Bool.not_eq_true'] at hng
    exact ih (applyOp s op) (permsLookup_applyOp s op t ns doc h hng.1) hng.2

theorem storageLookup_runOps (ns doc : String) (ops : List Op) :
    ∀ (s : MemDataStore), storageLookup s ns doc = none → noWrites ns doc ops = true →
      storageLookup (runOps s ops) ns doc = none := by
  induction ops with
  | nil =>
    intro s h _
    exact h
  | cons op rest ih =>
    intro s h hnw
    simp only [noWrites, List.all_cons, Bool.and_eq_true, Bool.not_eq_true'] at hnw
    exact ih (applyOp s op) (storageLookup_applyOp s op ns doc h hnw.1) hnw.2

theorem bytesOf_goAppend (s v : GoBytes) : bytesOf (goAppend s v) = bytesOf s ++ bytesOf v := by
  cases v with
  | none => simp [goAppend, bytesOf]
  | some l =>
    cases l with
    | nil => simp [goAppend, bytesOf]
    | cons b bs => cases s <;> simp [goAppend, bytesOf, Option.getD]

/-! ### Idempotence of the administrative mutators -/

theorem SetAdmin_idem (s : MemDataStore) (t : String) (is : Bool) :
    ((s.SetAdmin t is).2).SetAdmin t is = s.SetAdmin t is := by
  unfold MemDataStore.SetAdmin
  simp only [update_idem]

theorem SetNamespaceAdmin_idem (s : MemDataStore) (t ns : String) (is : Bool) :
    ((s.SetNamespaceAdmin t ns is).2).SetNamespaceAdmin t ns is = s.SetNamespaceAdmin t ns is := by
  cases hp : s.nsAdmins ns with
  | none =>
    cases is with
    | false => simp [MemDataStore.SetNamespaceAdmin, hp]
    | true =>
      simp [MemDataStore.SetNamespaceAdmin, hp, update_eq, update_idem]
  | some nsV =>
    cases is with
    | false =>
      simp [MemDataStore.SetNamespaceAdmin, hp, update_eq, update_idem]
    | true =>
      simp [MemDataStore.SetNamespaceAdmin, hp, update_eq, update_idem]

theorem SetToken_idem (s : MemDataStore) (t ns doc : String) (g p a : Bool) :
    ((s.SetToken t ns doc g p a).2).SetToken t ns doc g p a = s.SetToken t ns doc g p a := by
  unfold MemDataStore.SetToken
  cases hf : (!g && !p && !a) <;>
    simp only [hf, Bool.false_eq_true, if_false, if_true, update_eq, update_idem, setBits_idem]

theorem SetAdmin_unset_absent (s : MemDataStore) (t : String) (h : s.admins t = false) :
    s.SetAdmin t false = (none, s) := by
  unfold MemDataStore.SetAdmin
  rw [update_self s.admins t false h.symm]

theorem SetNamespaceAdmin_unset_absent (s : MemDataStore) (t ns : String)
    (h : (s.IsNamespaceAdmin t ns).1 = false) :
    s.SetNamespaceAdmin t ns false = (none, s) := by
  cases hp : s.nsAdmins ns with
  | none => simp [MemDataStore.SetNamespaceAdmin, hp]
  | some nsV =>
    simp only [isNamespaceAdmin_eq, nsAdminLookup, hp] at h
    simp only [MemDataStore.SetNamespaceAdmin, hp, if_false, Bool.false_eq_true]
    rw [update_self nsV t false h.symm, update_self s.nsAdmins ns (some nsV) hp.symm]

/-! ### The claims -/

/-- C1, counterexample: the claim says every checked operation invoked with
the store's root token never fails with AccessDenied; but `CheckedGet` only
consults `CanGet`, which knows nothing of the root token, so on a fresh
store with root token "R" a root-authenticated `CheckedGet` is denied. -/
theorem C1_counterexample_root_checkedGet_denied :
    (CheckedGet memOps "R" "ns" "doc" (NewMemDataStore "R")).1.2
      = some GoError.accessDenied := rfl

/-- C1 (amended): only `checkedSetAdmin` consults `IsRoot`; invoking it with
the store's root token never fails with AccessDenied (it never errors at
all), and `IsRoot` accepts the root token in every state.  The other five
checked operations consult the admin, namespace-admin and permission tables,
in which the root token has no special status. -/
theorem C1_amended_root_checkedSetAdmin (s : MemDataStore) (token : String) (is : Bool) :
    (s.IsRoot s.rootToken).1 = true ∧
    (CheckedSetAdmin memOps s.rootToken token is s).1 = none := by
  constructor
  · simp [MemDataStore.IsRoot]
  · rw [CheckedSetAdmin_memOps]
    simp [MemDataStore.SetAdmin]

/-- C2: the claim says a successful externally-submitted set-permission
request leaves the capability bits matching the request flags by name.  The
`setToken` handler in `api.go` instead calls
`CheckedSetToken(..., str.Put, str.Get, str.Append)`, transposing the Get
and Put flags into the `(get, put, app)` parameters of the store: a request
with `Get = true, Put = false` from an authorized namespace admin succeeds
but yields `canGet = false` and `canPut = true`. -/
theorem C2_codebug_setToken_swaps_get_put :
    ((apiSetToken memOps "gen" "N" "ns1" "doc1"
        { Token := "T", Put := false, Get := true, Append := false }
        ((NewMemDataStore "R").SetNamespaceAdmin "N" "ns1" true).2).1.1 = none) ∧
    ((apiSetToken memOps "gen" "N" "ns1" "doc1"
        { Token := "T", Put := false, Get := true, Append := false }
        ((NewMemDataStore "R").SetNamespaceAdmin "N" "ns1" true).2).2.CanGet
      "T" "ns1" "doc1").1 = false ∧
    ((apiSetToken memOps "gen" "N" "ns1" "doc1"
        { Token := "T", Put := false, Get := true, Append := false }
        ((NewMemDataStore "R").SetNamespaceAdmin "N" "ns1" true).2).2.CanPut
      "T" "ns1" "doc1").1 = true :=
  ⟨rfl, rfl, rfl⟩

/-- C3, counterexample: the claim says the root token is never a member of
the Admin Set in any reachable state, including after
`CheckedSetAdmin` invoked by root on its own token; but `SetAdmin` has no
root guard, so exactly that call puts the root token into the Admin Set. -/
theorem C3_counterexample_root_added_to_admin_set :
    ((CheckedSetAdmin memOps "R" "R" true (NewMemDataStore "R")).2).admins "R" = true := rfl

/-- C3 (amended): a freshly created store holds the root token in none of
the tables, and `IsRoot` is decided by direct string comparison with the
stored root token, independent of the tables; however nothing prevents a
later operation from inserting the root token into a table when it is
passed as the target token. -/
theorem C3_amended_fresh_tables_and_isRoot (root t ns tok : String) (s : MemDataStore) :
    (NewMemDataStore root).admins t = false ∧
    (NewMemDataStore root).nsAdmins ns = none ∧
    (NewMemDataStore root).perms ns = none ∧
    (NewMemDataStore root).storage ns = none ∧
    (s.IsRoot tok).1 = (s.rootToken == tok) :=
  ⟨rfl, rfl, rfl, rfl, rfl⟩

/-- C4: for every checked operation over any `DataStore`: when the consulted
predicate answers `(false, nil)` the operation fails with AccessDenied at
the predicate's output state without invoking the underlying operation; when
the predicate errors, that error is propagated verbatim, again without
invoking the underlying operation; and for the in-memory store every
predicate leaves the store state unchanged, so a denied or failed checked
operation leaves the entire store state unchanged. -/
theorem C4_gate_short_circuit_and_propagation {σ : Type} (ds : DataStoreOps σ) (s s' : σ)
    (ct t ns doc : String) (g p a is : Bool) (d v : GoBytes) (b : Bool) (e : GoError)
    (m : MemDataStore) :
    (ds.CanGet ct ns doc s = ((false, none), s') →
      CheckedGet ds ct ns doc s = ((none, some GoError.accessDenied), s')) ∧
    (ds.CanGet ct ns doc s = ((b, some e), s') →
      CheckedGet ds ct ns doc s = ((none, some e), s')) ∧
    (ds.CanPut ct ns doc s = ((false, none), s') →
      CheckedPut ds ct ns doc v s = (some GoError.accessDenied, s')) ∧
    (ds.CanPut ct ns doc s = ((b, some e), s') →
      CheckedPut ds ct ns doc v s = (some e, s')) ∧
    (ds.CanAppend ct ns doc s = ((false, none), s') →
      CheckedAppend ds ct ns doc d v s = (some GoError.accessDenied, s')) ∧
    (ds.CanAppend ct ns doc s = ((b, some e), s') →
      CheckedAppend ds ct ns doc d v s = (some e, s')) ∧
    (ds.IsNamespaceAdmin ct ns s = ((false, none), s') →
      CheckedSetToken ds ct t ns doc g p a s = (some GoError.accessDenied, s')) ∧
    (ds.IsNamespaceAdmin ct ns s = ((b, some e), s') →
      CheckedSetToken ds ct t ns doc g p a s = (some e, s')) ∧
    (ds.IsAdmin ct s = ((false, none), s') →
      CheckedSetNamespaceAdmin ds ct t ns is s = (some GoError.accessDenied, s')) ∧
    (ds.IsAdmin ct s = ((b, some e), s') →
      CheckedSetNamespaceAdmin ds ct t ns is s = (some e, s')) ∧
    (ds.IsRoot ct s = ((false, none), s') →
      CheckedSetAdmin ds ct t is s = (some GoError.accessDenied, s')) ∧
    (ds.IsRoot ct s = ((b, some e), s') →
      CheckedSetAdmin ds ct t is s = (some e, s')) ∧
    (memOps.CanGet ct ns doc m).2 = m ∧
    (memOps.CanPut ct ns doc m).2 = m ∧
    (memOps.CanAppend ct ns doc m).2 = m ∧
    (memOps.IsNamespaceAdmin ct ns m).2 = m ∧
    (memOps.IsAdmin ct m).2 = m ∧
    (memOps.IsRoot ct m).2 = m := by
  refine ⟨?_, ?_, ?_, ?_, ?_, ?_, ?_, ?_, ?_, ?_, ?_, ?_, rfl, rfl, rfl, rfl, rfl, rfl⟩ <;>
    intro h <;>
    simp [CheckedGet, CheckedPut, CheckedAppend, CheckedSetToken, CheckedSetNamespaceAdmin,
      CheckedSetAdmin, h]

/-- C4, witness: the denial half exercised on a fresh in-memory store (every
predicate answers false there), the propagation half on the always-failing
store. -/
theorem C4_gate_short_circuit_and_propagation_witness :
    CheckedGet memOps "t0" "n0" "d0" (NewMemDataStore "R0")
      = ((none, some GoError.accessDenied), NewMemDataStore "R0") ∧
    CheckedPut memOps "t0" "n0" "d0" none (NewMemDataStore "R0")
      = (some GoError.accessDenied, NewMemDataStore "R0") ∧
    CheckedAppend memOps "t0" "n0" "d0" none none (NewMemDataStore "R0")
      = (some GoError.accessDenied, NewMemDataStore "R0") ∧
    CheckedSetToken memOps "t0" "u0" "n0" "d0" true false false (NewMemDataStore "R0")
      = (some GoError.accessDenied, NewMemDataStore "R0") ∧
    CheckedSetNamespaceAdmin memOps "t0" "u0" "n0" true (NewMemDataStore "R0")
      = (some GoError.accessDenied, NewMemDataStore "R0") ∧
    CheckedSetAdmin memOps "t0" "u0" true (NewMemDataStore "R0")
      = (some GoError.accessDenied, NewMemDataStore "R0") ∧
    CheckedGet errOps "t0" "n0" "d0" () = ((none, some (GoError.errMsg "boom")), ()) ∧
    CheckedPut errOps "t0" "n0" "d0" none () = (some (GoError.errMsg "boom"), ()) ∧
    CheckedAppend errOps "t0" "n0" "d0" none none () = (some (GoError.errMsg "boom"), ()) ∧
    CheckedSetToken errOps "t0" "u0" "n0" "d0" true false false ()
      = (some (GoError.errMsg "boom"), ()) ∧
    CheckedSetNamespaceAdmin errOps "t0" "u0" "n0" true () = (some (GoError.errMsg "boom"), ()) ∧
    CheckedSetAdmin errOps "t0" "u0" true () = (some (GoError.errMsg "boom"), ()) := by
  have hm := C4_gate_short_circuit_and_propagation memOps (NewMemDataStore "R0")
    (NewMemDataStore "R0") "t0" "u0" "n0" "d0" true false false true none none false
    GoError.accessDenied (NewMemDataStore "R0")
  have he := C4_gate_short_circuit_and_propagation errOps () () "t0" "u0" "n0" "d0" true false
    false true none none false (GoError.errMsg "boom") (NewMemDataStore "R0")
  exact ⟨hm.1 rfl, hm.2.2.1 rfl, hm.2.2.2.2.1 rfl, hm.2.2.2.2.2.2.1 rfl,
    hm.2.2.2.2.2.2.2.2.1 rfl, hm.2.2.2.2.2.2.2.2.2.2.1 rfl,
    he.2.1 rfl, he.2.2.2.1 rfl, he.2.2.2.2.2.1 rfl, he.2.2.2.2.2.2.2.1 rfl,
    he.2.2.2.2.2.2.2.2.2.1 rfl, he.2.2.2.2.2.2.2.2.2.2.2.1 rfl⟩

/-- C5, counterexample: the claim says that for a triple never granted,
`get` returns NotFound; but `get` does not depend on the token, so a store
whose document was written (here by an engine `put`, with no grant ever
made to any token) returns the stored value, not NotFound. -/
theorem C5_counterexample_get_after_unrelated_put :
    noGrant "t" "ns" "doc" [Op.put "ns" "doc" (some [104])] = true ∧
    (MemDataStore.Get (runOps (NewMemDataStore "R") [Op.put "ns" "doc" (some [104])])
        "ns" "doc").1 = some [104] ∧
    (some [104] : GoBytes) ≠ none := by
  refine ⟨rfl, rfl, by simp⟩

/-- C5 (amended): for any triple to which no operation of the run ever
granted a capability, all three `can*` queries return false; `get` returns
NotFound provided additionally no operation ever wrote the document; and
`setToken(t, ns, doc, false, false, false)` removes any prior record, so
all three `can*` queries return false afterwards. -/
theorem C5_amended_default_deny (root : String) (ops : List Op) (t ns doc : String)
    (s : MemDataStore) :
    (noGrant t ns doc ops = true →
      ((runOps (NewMemDataStore root) ops).CanGet t ns doc).1 = false ∧
      ((runOps (NewMemDataStore root) ops).CanPut t ns doc).1 = false ∧
      ((runOps (NewMemDataStore root) ops).CanAppend t ns doc).1 = false) ∧
    (noWrites ns doc ops = true →
      (runOps (NewMemDataStore root) ops).Get ns doc = (none, none)) ∧
    ((((s.SetToken t ns doc false false false).2).CanGet t ns doc).1 = false ∧
      (((s.SetToken t ns doc false false false).2).CanPut t ns doc).1 = false ∧
      (((s.SetToken t ns doc false false false).2).CanAppend t ns doc).1 = false) := by
  have hzero : ∀ s2 : MemDataStore, permsLookup s2 ns doc t = 0 →
      (s2.CanGet t ns doc).1 = false ∧ (s2.CanPut t ns doc).1 = false ∧
      (s2.CanAppend t ns doc).1 = false := by
    intro s2 h
    refine ⟨?_, ?_, ?_⟩
    · rw [canGet_eq, h]
      decide
    · rw [canPut_eq, h]
      decide
    · rw [canAppend_eq, h]
      decide
  refine ⟨fun hng => hzero _ (permsLookup_runOps t ns doc ops (NewMemDataStore root) rfl hng),
    fun hnw => ?_, hzero _ ?_⟩
  · rw [get_eq, storageLookup_runOps ns doc ops (NewMemDataStore root) rfl hnw]
  · rw [permsLookup_SetToken_same]
    simp

/-- C5 (amended), witness: on the run consisting of a single unrelated admin
grant, the never-granted triple is denied on all three axes and the
never-written document reads NotFound. -/
theorem C5_amended_default_deny_witness :
    ((runOps (NewMemDataStore "R2") [Op.setAdmin "a2" true]).CanGet "t2" "n2" "d2").1 = false ∧
    (runOps (NewMemDataStore "R2") [Op.setAdmin "a2" true]).Get "n2" "d2" = (none, none) := by
  have h := C5_amended_default_deny "R2" [Op.setAdmin "a2" true] "t2" "n2" "d2"
    (NewMemDataStore "R2")
  exact ⟨(h.1 rfl).1, h.2.1 rfl⟩

/-- C6: the end-to-end hierarchy scenario of the spec, computed on the
embedded store: root "R" appoints admin "A", who appoints namespace admin
"N" for "ns1", who grants "T" Get and Put (not Append) on "doc1"; "T" can
then put and get "hi" but its append is rejected with AccessDenied. -/
theorem C6_hierarchy_scenario :
    (CheckedSetAdmin memOps "R" "A" true (NewMemDataStore "R")).1 = none ∧
    (CheckedSetNamespaceAdmin memOps "A" "N" "ns1" true scenario1).1 = none ∧
    (CheckedSetToken memOps "N" "T" "ns1" "doc1" true true false scenario2).1 = none ∧
    (CheckedPut memOps "T" "ns1" "doc1" (some [104, 105]) scenario3).1 = none ∧
    (CheckedGet memOps "T" "ns1" "doc1" scenario4).1 = (some [104, 105], none) ∧
    (CheckedAppend memOps "T" "ns1" "doc1" (some [10]) (some [120])
      (CheckedGet memOps "T" "ns1" "doc1" scenario4).2).1 = some GoError.accessDenied :=
  ⟨rfl, rfl, rfl, rfl, rfl, rfl⟩

/-- C7: `append(ns, doc, delim, v)` always succeeds and stores a byte
sequence equal to the previous contents (empty when the document did not
exist) followed by the delimiter and the value; in particular two appends of
"a" and "b" with delimiter "|" onto a fresh store make `get` return
"|a|b". -/
theorem C7_append_semantics (s : MemDataStore) (ns doc : String) (delim v : GoBytes) :
    bytesOf (storageLookup (s.Append ns doc delim v).2 ns doc) =
      bytesOf (storageLookup s ns doc) ++ bytesOf delim ++ bytesOf v ∧
    (s.Append ns doc delim v).1 = none ∧
    ((((NewMemDataStore "R").Append "ns" "doc" (some [124]) (some [97])).2.Append
        "ns" "doc" (some [124]) (some [98])).2.Get "ns" "doc")
      = (some [124, 97, 124, 98], none) := by
  refine ⟨?_, rfl, rfl⟩
  · rw [storageLookup_Append]
    simp [bytesOf_goAppend]

/-- C8, counterexample: the claim says `get` returns NotFound only for a
never-written document and that a zero-length `put` reads back non-NotFound;
but `put` of the nil (zero-length) slice stores nil, which `get` reports as
the NotFound indicator although the document was written. -/
theorem C8_counterexample_put_nil_reads_notfound :
    (((NewMemDataStore "R").Put "ns" "doc" none).2).Get "ns" "doc" = (none, none) := rfl

/-- C8 (amended): `get` returns NotFound for a never-written document; a
`put`/`get` round-trip returns exactly the stored slice for every value
(nil included), so a put of a non-nil slice — in particular the zero-length
non-nil slice — reads back as that non-NotFound slice, distinguishable
from NotFound. -/
theorem C8_amended_notfound_vs_empty (root : String) (ops : List Op) (s : MemDataStore)
    (ns doc : String) (v : GoBytes) (l : List Nat) :
    (noWrites ns doc ops = true →
      (runOps (NewMemDataStore root) ops).Get ns doc = (none, none)) ∧
    ((s.Put ns doc v).2).Get ns doc = (v, none) ∧
    ((s.Put ns doc (some l)).2).Get ns doc = (some l, none) ∧
    (some l : GoBytes) ≠ none := by
  refine ⟨fun hnw => ?_, ?_, ?_, by simp⟩
  · rw [get_eq, storageLookup_runOps ns doc ops (NewMemDataStore root) rfl hnw]
  · rw [get_eq, storageLookup_Put]
    simp
  · rw [get_eq, storageLookup_Put]
    simp

/-- C8 (amended), witness: a run containing only a permission grant never
writes the document, which therefore reads NotFound. -/
theorem C8_amended_notfound_vs_empty_witness :
    (runOps (NewMemDataStore "R3") [Op.setToken "x3" "n3" "d3" true false false]).Get "n3" "d3"
      = (none, none) :=
  (C8_amended_notfound_vs_empty "R3" [Op.setToken "x3" "n3" "d3" true false false]
    (NewMemDataStore "R3") "n3" "d3" none []).1 rfl

/-- C9: repeating an identical `setAdmin`, `setNamespaceAdmin` or `setToken`
call immediately after the first returns the same error-free result and the
same state; and unsetting an absent membership (`setAdmin(t, false)` with
`t` not an admin, `setNamespaceAdmin(t, ns, false)` with `t` not a
namespace admin of `ns`) is an error-free no-op on the state. -/
theorem C9_idempotence (s : MemDataStore) (t ns doc : String) (g p a is : Bool) :
    ((s.SetAdmin t is).2).SetAdmin t is = s.SetAdmin t is ∧
    ((s.SetNamespaceAdmin t ns is).2).SetNamespaceAdmin t ns is = s.SetNamespaceAdmin t ns is ∧
    ((s.SetToken t ns doc g p a).2).SetToken t ns doc g p a = s.SetToken t ns doc g p a ∧
    (s.SetAdmin t is).1 = none ∧
    (s.SetNamespaceAdmin t ns is).1 = none ∧
    (s.SetToken t ns doc g p a).1 = none ∧
    (s.admins t = false → s.SetAdmin t false = (none, s)) ∧
    ((s.IsNamespaceAdmin t ns).1 = false → s.SetNamespaceAdmin t ns false = (none, s)) :=
  ⟨SetAdmin_idem s t is, SetNamespaceAdmin_idem s t ns is, SetToken_idem s t ns doc g p a,
    rfl, SetNamespaceAdmin_err s t ns is, rfl,
    SetAdmin_unset_absent s t, SetNamespaceAdmin_unset_absent s t ns⟩

/-- C9, witness: on a fresh store, unsetting an absent admin and an absent
namespace admin are error-free no-ops. -/
theorem C9_idempotence_witness :
    (NewMemDataStore "R1").SetAdmin "x1" false = (none, NewMemDataStore "R1") ∧
    (NewMemDataStore "R1").SetNamespaceAdmin "x1" "n1" false = (none, NewMemDataStore "R1") := by
  have h := C9_idempotence (NewMemDataStore "R1") "x1" "n1" "d1" true true false false
  exact ⟨h.2.2.2.2.2.2.1 rfl, h.2.2.2.2.2.2.2 rfl⟩
